import Mathlib

/-!
# Verification of the rip2 provenance log and relocation engine

A shallow embedding of the core of the `rip2` reversible-deletion tool:
the provenance log (`src/record.rs`) and the relocation engine
(`src/lib.rs`), together with theorems settling the specification
claims about them.

Files are modelled as lists of lines (`List String`); the filesystem is
modelled by a predicate `String → Bool` telling which paths exist; the
interactive confirmation collaborator is a function from prompts to
booleans; Rust panics are modelled by `Option.none`; recoverable errors
by `Except Err`.
-/

namespace Rip2

/-! ## String utilities

Splitting is implemented by structural recursion over the character
list so that all definitions evaluate by kernel reduction.
-/

/-- Split a character list at every occurrence of `sep`
(the semantics of Rust's `str::split(sep)`: `n` separators produce
`n + 1` fields, and the empty string produces one empty field). -/
def splitChar (sep : Char) : List Char → List (List Char)
  | [] => [[]]
  | c :: cs =>
    let rest := splitChar sep cs
    if c = sep then [] :: rest
    else
      match rest with
      | [] => [[c]]
      | t :: ts => (c :: t) :: ts

/-- `line.split('\t')` from `RecordItem::new` (src/record.rs:21). -/
def splitOnTab (s : String) : List String :=
  (splitChar '\t' s.data).map String.mk

/-- Rust `char::is_whitespace`: the Unicode `White_Space` property
(as used in `RecordItem::parse_timestamp`, src/record.rs:41-45). -/
def rustIsWhitespace (c : Char) : Bool :=
  let n := c.val.toNat
  (9 ≤ n && n ≤ 13) || n == 32 || n == 0x85 || n == 0xA0 || n == 0x1680 ||
    (0x2000 ≤ n && n ≤ 0x200A) || n == 0x2028 || n == 0x2029 ||
    n == 0x202F || n == 0x205F || n == 0x3000

/-- Rust `char::is_ascii_alphanumeric`. -/
def rustIsAsciiAlphanumeric (c : Char) : Bool :=
  let n := c.val.toNat
  (48 ≤ n && n ≤ 57) || (65 ≤ n && n ≤ 90) || (97 ≤ n && n ≤ 122)

/-- Helper for `wsTokenCount`: counts maximal runs of non-whitespace
characters; the flag remembers whether we are inside a run. -/
def countTokens : List Char → Bool → Nat
  | [], _ => 0
  | c :: cs, inTok =>
    if rustIsWhitespace c then countTokens cs false
    else (if inTok then 0 else 1) + countTokens cs true

/-- `s.split_whitespace().count()` from src/record.rs:41. -/
def wsTokenCount (s : String) : Nat :=
  countTokens s.data false

/-! ## Error model -/

/-- The `std::io::ErrorKind` values the embedded code constructs. -/
inductive ErrKind where
  | notFound
  | invalidData
  | otherErr
deriving DecidableEq

/-- A `std::io::Error`: a kind plus its message. -/
structure Err where
  kind : ErrKind
  msg : String
deriving DecidableEq

/-! ## Record items (src/record.rs) -/

/-- One data row of the record file (`RecordItem`, src/record.rs:12). -/
structure RecordItem where
  time : String
  orig : String
  dest : String
deriving DecidableEq

/-- `RecordItem::new` (src/record.rs:20-30): split the line on tabs and
take the first three fields.  The `.expect("Bad format: column …")`
calls panic when fewer than three fields are present; the panic is
modelled by `none`. -/
def RecordItem.new? (line : String) : Option RecordItem :=
  match splitOnTab line with
  | t :: o :: d :: _ => some ⟨t, o, d⟩
  | _ => none

/-- The legacy-format error message built at src/record.rs:49-55
(Rust's trailing `\` line continuations splice the string together
with single spaces). -/
def oldFormatMsg (t : String) : String :=
  "Found timestamp '" ++ t ++ "' from old rip format. " ++
    "You will need to delete the `.record` file and start over with rip2. " ++
    "You can see the path with `rip graveyard`."

/-- The generic timestamp-parse error message (src/record.rs:60). -/
def rfc3339FailMsg (t : String) : String :=
  "Failed to parse time '" ++ t ++ "' as RFC3339 format"

/-- `is_old_format` (src/record.rs:41-45): exactly five
whitespace-separated tokens, and every character ASCII-alphanumeric,
whitespace, or a colon. -/
def isOldFormat (t : String) : Bool :=
  wsTokenCount t == 5 &&
    t.data.all fun c => rustIsAsciiAlphanumeric c || rustIsWhitespace c || c == ':'

/-- `RecordItem::parse_timestamp` (src/record.rs:34-63).  The external
RFC3339 parser (`DateTime::parse_from_rfc3339`) is abstracted as the
predicate `rfcOk`; the function only needs whether it succeeds. -/
def parseTimestamp (rfcOk : String → Bool) (t : String) : Except Err Unit :=
  if rfcOk t then .ok ()
  else if isOldFormat t then .error ⟨.invalidData, oldFormatMsg t⟩
  else .error ⟨.invalidData, rfc3339FailMsg t⟩

/-! ## Record queries (src/record.rs)

A record file is a list of lines.  All queries skip the first line
unconditionally (`reader.next()` / `lines.next()`) and parse the rest.
A result of `none` models a Rust panic while consuming the query's
iterator.
-/

/-- Path components, for `Path::starts_with` (component-wise prefix,
not string prefix): empty components from repeated separators are
dropped, as Rust's `Path::components` does. -/
def pathComponents (s : String) : List String :=
  ((splitChar '/' s.data).map String.mk).filter (· ≠ "")

/-- Rust `Path::starts_with`: component-wise prefix test
(src/record.rs:223). -/
def pathStartsWith (p pfx : String) : Bool :=
  (pathComponents pfx).isPrefixOf (pathComponents p)

/-- Parse every line with `RecordItem::new`; `none` if any line
panics. -/
def parseAll : List String → Option (List RecordItem)
  | [] => some []
  | l :: ls =>
    match RecordItem.new? l, parseAll ls with
    | some r, some rs => some (r :: rs)
    | _, _ => none

/-- `Record::seance` (src/record.rs:213-224): skip the first line,
parse each remaining line, keep the rows whose destination starts with
`gravepath`.  There is no header validation: the first line is skipped
whatever it contains, and the only error the Rust function can return
comes from opening the file. -/
def seance (lines : List String) (gravepath : String) : Option (List RecordItem) :=
  (parseAll (lines.drop 1)).map (List.filter fun r => pathStartsWith r.dest gravepath)

/-- Helper for `Record::lines_of_graves`: the filtered tail. -/
def linesOfGravesAux (graves : List String) : List String → Option (List String)
  | [] => some []
  | l :: ls =>
    match RecordItem.new? l, linesOfGravesAux graves ls with
    | some r, some ks => some (if graves.contains r.dest then l :: ks else ks)
    | _, _ => none

/-- `Record::lines_of_graves` (src/record.rs:200-210): skip the first
line, keep the raw lines whose parsed destination is one of `graves`.
Again no header validation. -/
def linesOfGraves (lines : List String) (graves : List String) : Option (List String) :=
  linesOfGravesAux graves (lines.drop 1)

/-- Helper for `Record::delete_lines`: the lines written back, i.e.
every line whose parsed destination is not one of `graves`
(src/record.rs:167-170). -/
def keptLines (graves : List String) : List String → Option (List String)
  | [] => some []
  | l :: ls =>
    match RecordItem.new? l, keptLines graves ls with
    | some r, some ks => some (if graves.contains r.dest then ks else l :: ks)
    | _, _ => none

/-- `Record::delete_lines` (src/record.rs:157-185).  Its reading side
is a function of the lines still readable from the `record_file`
handle it receives — the handle's cursor position matters, because the
Rust `File` cursor is shared with every previous reader of that handle.
The first readable line (or `""` when the handle yields nothing, per
`unwrap_or_else(|| Ok(String::new()))`) is written back as the header,
followed by every remaining readable line whose destination is not in
`graves`.  Returns the new contents of the record file. -/
def deleteLinesH (remaining : List String) (graves : List String) :
    Option (List String) :=
  (keptLines graves (remaining.drop 1)).map (remaining.headD "" :: ·)

/-- `Record::log_exhumed_graves` (src/record.rs:187-197): re-opens the
record (a fresh handle at offset zero) and deletes the given graves,
so `delete_lines` reads the whole file. -/
def logExhumedGraves (fileLines : List String) (graves : List String) :
    Option (List String) :=
  deleteLinesH fileLines graves

/-- Loop of `Record::get_last_bury` (src/record.rs:136-148) over the
reversed data rows.  `fileLines` is the whole file (used when no
pruning is needed), `ex` tells which destinations still exist on disk,
`stale` accumulates the destinations already found missing.  Crucially,
when `delete_lines` is invoked here the `record_file` handle has
already been read to end-of-file by `read_to_string`, so the
handle-relative view passed on is the empty list. -/
def glbLoop (fileLines : List String) (ex : String → Bool) :
    List String → List String → Option (Except Err String × List String)
  | [], stale =>
    if stale.isEmpty then
      some (.error ⟨.notFound, "No files in graveyard"⟩, fileLines)
    else
      (deleteLinesH [] stale).map (.error ⟨.notFound, "No files in graveyard"⟩, ·)
  | l :: ls, stale =>
    match RecordItem.new? l with
    | none => none
    | some r =>
      if ex r.dest then
        if stale.isEmpty then some (.ok r.dest, fileLines)
        else (deleteLinesH [] stale).map (.ok r.dest, ·)
      else glbLoop fileLines ex ls (stale ++ [r.dest])

/-- `Record::get_last_bury` (src/record.rs:125-154): read the whole
file, skip the header line, scan the data rows newest-to-oldest, and
return the first destination that still exists, pruning the stale rows
discovered on the way via `delete_lines`.  The result pairs the
returned value with the record file's contents afterwards. -/
def getLastBury (fileLines : List String) (ex : String → Bool) :
    Option (Except Err String × List String) :=
  glbLoop fileLines ex ((fileLines.drop 1).reverse) []

/-! ## Relocation engine: `copy_file` and the file branch of
`move_target` (src/lib.rs) -/

/-- `BIG_FILE_THRESHOLD` (src/lib.rs:32). -/
def BIG_FILE_THRESHOLD : Nat := 500000000

/-- The file types `copy_file` dispatches on (src/lib.rs:488-508). -/
inductive FType where
  | regular
  | fifoFile
  | symlinkFile
  | otherFile
deriving DecidableEq

/-- The two confirmation prompts `copy_file` can issue: the big-file
prompt (src/lib.rs:474-482, "About to copy a big file … Permanently
delete this file instead?") and the non-regular-file prompt
(src/lib.rs:513-520, "Non-regular file or directory … Permanently
delete the file?"). -/
inductive Prompt where
  | bigFile
  | nonRegular
deriving DecidableEq

/-- The environment `copy_file` runs in: the source's metadata, the
outcome of the fallible filesystem primitives it may call, and the
confirmation collaborator (`util::prompt_yes`). -/
structure CopyCtx where
  /-- `metadata.len()`. -/
  len : Nat
  /-- `metadata.file_type()`. -/
  ftype : FType
  /-- The answer `util::prompt_yes` would return for each prompt. -/
  confirm : Prompt → Bool
  /-- Whether `fs::copy(source, dest)` succeeds. -/
  copyOk : Bool
  /-- The error `fs::copy` fails with when `copyOk = false`. -/
  copyErr : Err
  /-- Whether `mkfifo(dest, mode)` succeeds. -/
  mkfifoOk : Bool
  /-- The error `mkfifo` fails with. -/
  mkfifoErr : Err
  /-- Whether `read_link` + `symlink(target, dest)` succeeds. -/
  symlinkOk : Bool
  /-- The error the symlink re-creation fails with. -/
  symlinkErr : Err

instance {ε α : Type} [DecidableEq ε] [DecidableEq α] :
    DecidableEq (Except ε α) := fun x y =>
  match x, y with
  | .ok a, .ok b =>
    if h : a = b then isTrue (by rw [h])
    else isFalse (by intro hc; cases hc; exact h rfl)
  | .error a, .error b =>
    if h : a = b then isTrue (by rw [h])
    else isFalse (by intro hc; cases hc; exact h rfl)
  | .ok _, .error _ => isFalse (by intro hc; cases hc)
  | .error _, .ok _ => isFalse (by intro hc; cases hc)

/-- Observable outcome of `copy_file`: its return value, whether a
destination object was created, whether `fs::copy` was attempted, and
the prompts issued, in order. -/
structure CopyResult where
  result : Except Err Bool
  destCreated : Bool
  copyAttempted : Bool
  prompts : List Prompt
deriving DecidableEq

/-- The file-type dispatch of `copy_file` (src/lib.rs:488-528), after
the big-file check; `ps` carries the prompts already issued. -/
def copyFileDispatch (ctx : CopyCtx) (force : Bool) (ps : List Prompt) :
    CopyResult :=
  match ctx.ftype with
  | .regular =>
    -- src/lib.rs:488-491: `fs::copy(source, dest)?; return Ok(true)`
    if ctx.copyOk then ⟨.ok true, true, true, ps⟩
    else ⟨.error ctx.copyErr, false, true, ps⟩
  | .fifoFile =>
    -- src/lib.rs:493-500: `mkfifo(dest, mode)?; return Ok(true)`
    if ctx.mkfifoOk then ⟨.ok true, true, false, ps⟩
    else ⟨.error ctx.mkfifoErr, false, false, ps⟩
  | .symlinkFile =>
    -- src/lib.rs:502-506: `symlink(read_link(source)?, dest)?; Ok(true)`
    if ctx.symlinkOk then ⟨.ok true, true, false, ps⟩
    else ⟨.error ctx.symlinkErr, false, false, ps⟩
  | .otherFile =>
    -- src/lib.rs:508-528: try the generic copy; on failure, unless
    -- `force`, ask the non-regular prompt: answering yes returns
    -- Ok(false), answering no (or `force`) propagates the copy error.
    if ctx.copyOk then ⟨.ok true, true, true, ps⟩
    else if !force then
      if ctx.confirm .nonRegular then ⟨.ok false, false, true, ps ++ [.nonRegular]⟩
      else ⟨.error ctx.copyErr, false, true, ps ++ [.nonRegular]⟩
    else ⟨.error ctx.copyErr, false, true, ps⟩

/-- `copy_file` (src/lib.rs:461-529).  First the big-file check
(src/lib.rs:471-486): for a source over the threshold, unless `force`,
the big-file prompt is issued and answering yes returns `Ok(false)`
before anything is copied; then the file-type dispatch. -/
def copyFile (ctx : CopyCtx) (force : Bool) : CopyResult :=
  if ctx.len > BIG_FILE_THRESHOLD then
    if !force then
      if ctx.confirm .bigFile then ⟨.ok false, false, false, [.bigFile]⟩
      else copyFileDispatch ctx force [.bigFile]
    else copyFileDispatch ctx force []
  else copyFileDispatch ctx force []

/-- Observable outcome of the non-directory branch of `move_target`:
its return value, whether a destination was created, whether the
original was removed, and the prompts issued. -/
structure MoveFileResult where
  result : Except Err Bool
  destCreated : Bool
  origRemoved : Bool
  prompts : List Prompt
deriving DecidableEq

/-- The non-directory branch of `move_target` (src/lib.rs:354-392).
When `allow_rename` is set and the rename succeeds the move is done;
otherwise `copy_file` runs (its error wrapped with "Failed to copy
file" context, kind preserved) and then the original is removed with
`fs::remove_file` (outcome `removeOk`/`removeErr`), whatever boolean
`copy_file` returned.  The directory-scaffolding call
(`create_dirs_with_permissions`) only creates parent directories and
is not modelled. -/
def moveTargetFile (ctx : CopyCtx) (allowRename renameOk force removeOk : Bool)
    (removeErr : Err) : MoveFileResult :=
  if allowRename && renameOk then ⟨.ok true, true, true, []⟩
  else
    let c := copyFile ctx force
    match c.result with
    | .error e =>
      ⟨.error ⟨e.kind, "Failed to copy file"⟩, c.destCreated, false, c.prompts⟩
    | .ok moved =>
      if removeOk then ⟨.ok moved, c.destCreated, true, c.prompts⟩
      else ⟨.error ⟨removeErr.kind, "Failed to remove file"⟩,
            c.destCreated, false, c.prompts⟩

/-- `bury_target` appends a record row only when `move_target`
returned `Ok(true)` (src/lib.rs:216-219). -/
def buryWritesLog (r : MoveFileResult) : Bool :=
  match r.result with
  | .ok true => true
  | _ => false

/-! ## Path utilities

`util.rs` is not part of the sources provided, so these two helpers
are modelled from the specification.
-/

/-- Modelled from the spec: `util::join_absolute` — "an explicit
join(graveyard_root, absolute_path) pure function … drop the leading
path separator of the absolute path before joining" (spec §9), giving
`destination_path = graveyard_root + absolute(original_path)`
(spec §3). -/
def joinAbsolute (g a : String) : String :=
  g ++ "/" ++
    (match a.data with
     | '/' :: rest => String.mk rest
     | _ => a)

/-- The candidate name with suffix `~n` appended to the final path
component. -/
def graveName (p : String) (n : Nat) : String :=
  p ++ "~" ++ toString n

/-- Modelled from the spec: `util::rename_grave` — "a `~N` suffix
appended (N = 1, 2, 3, … first free integer) to the final path
component when a destination already exists" (spec §3).  `ex` is the
existence test on disk (`util::symlink_exists`); the hypothesis `h`
says some suffix is free (true on a finite filesystem). -/
def renameGrave (ex : String → Bool) (p : String)
    (h : ∃ n, ex (graveName p (n + 1)) = false) : String :=
  graveName p (Nat.find h + 1)

/-- Destination choice of `bury_target` (src/lib.rs:200-209): mirror
the absolute source path under the graveyard, then resolve a collision
with `rename_grave` if that destination already exists. -/
def buryDest (ex : String → Bool) (g src : String)
    (h : ∃ n, ex (graveName (joinAbsolute g src) (n + 1)) = false) : String :=
  if ex (joinAbsolute g src) then renameGrave ex (joinAbsolute g src) h
  else joinAbsolute g src

/-- Restore-path choice of the unbury loop in `run`
(src/lib.rs:87-91): restore to the recorded original path, unless
something already exists there, in which case restore to its
collision-renamed variant. -/
def restoreTarget (ex : String → Bool) (orig : String)
    (h : ∃ n, ex (graveName orig (n + 1)) = false) : String :=
  if ex orig then renameGrave ex orig h else orig

/-! ## The record-file lock discipline (src/record.rs:227-268, 157-185)

`write_log` and `delete_lines` are modelled as traces of atomic
actions against the shared record file, and the exclusive advisory
lock (`fs4`'s `lock_exclusive`) as a semantics on schedules: acquiring
blocks while another process holds the lock, writing appends bytes and
is not itself guarded (the lock is advisory).  A schedule of two
processes is any interleaving of their traces; `runTrace` returns
`none` for schedules the lock semantics forbids.
-/

/-- An atomic action of process `p` against the record file. -/
inductive LogAction where
  | acquire (p : Bool)
  | release (p : Bool)
  | writeChunk (p : Bool) (s : String)
  | truncate (p : Bool)
deriving DecidableEq

/-- The record file's raw contents plus the advisory lock's holder. -/
structure LogState where
  file : String
  holder : Option Bool
deriving DecidableEq

/-- Advisory-lock semantics of one action. -/
def stepAction : LogState → LogAction → Option LogState
  | ⟨f, none⟩, .acquire p => some ⟨f, some p⟩
  | ⟨_, some _⟩, .acquire _ => none
  | ⟨f, some q⟩, .release p => if p = q then some ⟨f, none⟩ else none
  | ⟨_, none⟩, .release _ => none
  | ⟨f, h⟩, .writeChunk _ s => some ⟨f ++ s, h⟩
  | ⟨_, h⟩, .truncate _ => some ⟨"", h⟩

/-- Run a schedule from a state; `none` when the lock semantics
forbids a step. -/
def runTrace : LogState → List LogAction → Option LogState
  | st, [] => some st
  | st, a :: rest => (stepAction st a).bind (runTrace · rest)

/-- The write fragments of one appended row: `writeln!` emits the
formatted pieces of `"{}\t{}\t{}"` plus the newline as separate
writes, which is what makes unlocked concurrent appends interleave. -/
def rowFragments (time orig dest : String) : List String :=
  [time, "\t", orig, "\t", dest, "\n"]

/-- Concatenation of a fragment list. -/
def catFrags : List String → String
  | [] => ""
  | s :: rest => s ++ catFrags rest

/-- The action trace of `Record::write_log` on an existing record file
(src/record.rs:235-259): open in append mode, `lock_exclusive` when
`FILE_LOCK`, write the row's fragments, release on drop. -/
def writeLogTrace (fileLock : Bool) (p : Bool) (ws : List String) :
    List LogAction :=
  (if fileLock then [LogAction.acquire p] else []) ++
    ws.map (LogAction.writeChunk p) ++
    (if fileLock then [LogAction.release p] else [])

/-- The action trace of `Record::delete_lines`' rewriting side
(src/record.rs:172-183): the record path is opened with
`truncate(true)` — which truncates at open time — then
`lock_exclusive` is taken when `FILE_LOCK`, the header and kept lines
are written, and the lock is released on drop. -/
def deleteLinesTrace (fileLock : Bool) (p : Bool) (ws : List String) :
    List LogAction :=
  [LogAction.truncate p] ++
    (if fileLock then [LogAction.acquire p] else []) ++
    ws.map (LogAction.writeChunk p) ++
    (if fileLock then [LogAction.release p] else [])

/-- `Interleave xs ys zs`: `zs` is an order-preserving interleaving of
`xs` and `ys` — the schedules two concurrent processes can produce. -/
inductive Interleave : List LogAction → List LogAction → List LogAction → Prop
  | nil : Interleave [] [] []
  | left {x xs ys zs} : Interleave xs ys zs → Interleave (x :: xs) ys (x :: zs)
  | right {y xs ys zs} : Interleave xs ys zs → Interleave xs (y :: ys) (y :: zs)

/-! ## Concrete instances used by witnesses and counterexamples -/

/-- A regular file just over the 500 MB threshold, with a collaborator
that answers yes to every prompt. -/
def ctxBigYes : CopyCtx :=
  ⟨500000001, .regular, fun _ => true, true, ⟨.otherErr, "copy failed"⟩,
    true, ⟨.otherErr, "mkfifo failed"⟩, true, ⟨.otherErr, "symlink failed"⟩⟩

/-- A special (non-regular) file whose generic copy fails, with a
collaborator that answers no to every prompt. -/
def ctxSpecialNo : CopyCtx :=
  ⟨0, .otherFile, fun _ => false, false, ⟨.otherErr, "generic copy failed"⟩,
    true, ⟨.otherErr, "mkfifo failed"⟩, true, ⟨.otherErr, "symlink failed"⟩⟩

/-- A special (non-regular) file whose generic copy fails, with a
collaborator that answers yes to every prompt. -/
def ctxSpecialYes : CopyCtx :=
  ⟨0, .otherFile, fun _ => true, false, ⟨.otherErr, "generic copy failed"⟩,
    true, ⟨.otherErr, "mkfifo failed"⟩, true, ⟨.otherErr, "symlink failed"⟩⟩

/-!
# Theorems
-/

/-! ## Auxiliary lemmas -/

theorem recordItemNew_eq_none {line : String}
    (h : (splitOnTab line).length < 3) : RecordItem.new? line = none := by
  unfold RecordItem.new?
  match hs : splitOnTab line with
  | [] => rfl
  | [_] => rfl
  | [_, _] => rfl
  | _ :: _ :: _ :: _ => rw [hs] at h; simp at h; omega

theorem linesOfGravesAux_none_of_mem (graves : List String) {l : String}
    (hn : RecordItem.new? l = none) :
    ∀ ls, l ∈ ls → linesOfGravesAux graves ls = none := by
  intro ls hmem
  induction ls with
  | nil => cases hmem
  | cons x xs ih =>
    cases hmem with
    | head => simp [linesOfGravesAux, hn]
    | tail _ hm =>
      unfold linesOfGravesAux
      rw [ih hm]
      cases hx : RecordItem.new? x <;> simp

theorem parseAll_none_of_mem {l : String} (hn : RecordItem.new? l = none) :
    ∀ ls, l ∈ ls → parseAll ls = none := by
  intro ls hmem
  induction ls with
  | nil => cases hmem
  | cons x xs ih =>
    cases hmem with
    | head => simp [parseAll, hn]
    | tail _ hm =>
      unfold parseAll
      rw [ih hm]
      cases hx : RecordItem.new? x <;> simp

/-! ## C1 — header validation -/

/-- C1: the claim says every query on a record file whose first line
is not the expected header fails with `InvalidData` naming the
expected and actual header.  The code has no header check at all: on
the headerless record file of the repository's own `test_no_header`
test, `seance` silently swallows the first data row as if it were the
header and yields the remaining rows; `lines_of_graves` does the same;
and `get_last_bury` reports `NotFound` rather than `InvalidData`.  No
query can return an `InvalidData` header error. -/
theorem headerless_queries_succeed :
    seance ["2024-12-21T16:47:21.922660-05:00\toldpath\tnewpath",
            "2024-12-22T00:00:00-05:00\to2\tnewpath2"] "" =
      some [⟨"2024-12-22T00:00:00-05:00", "o2", "newpath2"⟩] ∧
    linesOfGraves ["2024-12-21T16:47:21.922660-05:00\toldpath\tnewpath"]
      ["newpath"] = some [] ∧
    getLastBury ["2024-12-21T16:47:21.922660-05:00\toldpath\tnewpath"]
      (fun _ => true) =
      some (.error ⟨.notFound, "No files in graveyard"⟩,
        ["2024-12-21T16:47:21.922660-05:00\toldpath\tnewpath"]) :=
  ⟨by decide, by decide, rfl⟩

/-! ## C2 — row deletion -/

/-- C2: `delete_lines` keeps the header plus every non-matching row in
order only when it reads from a fresh handle (the `log_exhumed_graves`
call site).  At the `get_last_bury` call site the handle has already
been read to end-of-file, so the rewrite sees no lines at all and
replaces the whole record — header and unrelated rows included — by a
single empty line. -/
theorem deleteLines_eof_handle_wipes_record :
    deleteLinesH ["Time\tOriginal\tDestination",
                  "t1\t/x/a\t/g/x/a",
                  "t2\t/x/b\t/g/x/b"] ["/g/x/b"] =
      some ["Time\tOriginal\tDestination", "t1\t/x/a\t/g/x/a"] ∧
    deleteLinesH [] ["/g/x/b"] = some [""] :=
  ⟨by decide, by decide⟩

/-! ## C3 — most-recent-live query -/

/-- C3: on a record with one stale row (newest) followed by a live
row, `get_last_bury` does return the live destination, but instead of
removing just the stale row it rewrites the record file to a single
empty line, because `delete_lines` reads from the handle that
`read_to_string` has already exhausted.  The not-found path destroys
the record the same way. -/
theorem getLastBury_prune_wipes_record :
    getLastBury ["Time\tOriginal\tDestination",
                 "t1\t/x/a\t/g/x/a",
                 "t2\t/x/b\t/g/x/b"] (fun s => s == "/g/x/a") =
      some (.ok "/g/x/a", [""]) ∧
    getLastBury ["Time\tOriginal\tDestination",
                 "t2\t/x/b\t/g/x/b"] (fun _ => false) =
      some (.error ⟨.notFound, "No files in graveyard"⟩, [""]) :=
  ⟨rfl, rfl⟩

/-! ## C9 — malformed lines panic -/

/-- C9: a record line with fewer than three tab-separated fields
(including a blank line) makes `RecordItem::new` panic (`none` in this
embedding) rather than produce an error value, so any query whose
consumption reaches such a line panics instead of returning an
`InvalidData` error. -/
theorem recordItem_short_line_panics (line : String)
    (h : (splitOnTab line).length < 3) :
    RecordItem.new? line = none ∧
    ∀ lines graves gravepath, line ∈ lines.drop 1 →
      linesOfGraves lines graves = none ∧ seance lines gravepath = none := by
  have hn := recordItemNew_eq_none h
  refine ⟨hn, fun lines graves gravepath hmem => ⟨?_, ?_⟩⟩
  · exact linesOfGravesAux_none_of_mem graves hn _ hmem
  · unfold seance
    rw [parseAll_none_of_mem hn _ hmem]
    rfl

/-- Witness for C9 at the blank line and a tab-less line. -/
theorem recordItem_short_line_panics_witness :
    RecordItem.new? "" = none ∧
    linesOfGraves ["Time\tOriginal\tDestination", "abc"] ["d"] = none ∧
    seance ["Time\tOriginal\tDestination", "abc"] "/g" = none :=
  ⟨(recordItem_short_line_panics "" (by decide)).1,
   ((recordItem_short_line_panics "abc" (by decide)).2
      ["Time\tOriginal\tDestination", "abc"] ["d"] "/g" (by decide)).1,
   ((recordItem_short_line_panics "abc" (by decide)).2
      ["Time\tOriginal\tDestination", "abc"] ["d"] "/g" (by decide)).2⟩

/-! ## C4 — timestamp parse errors -/

/-- C4: when the time column fails RFC3339 parsing, the error is
`InvalidData` either way: if the text has exactly five
whitespace-separated tokens and only ASCII-alphanumeric, whitespace or
colon characters, the message names the text and instructs the user to
delete the record file and start over; any other unparsable text gets
the generic parse-failure message naming the text. -/
theorem parseTimestamp_classifies_unparsable (rfcOk : String → Bool)
    (t : String) (hfail : rfcOk t = false) :
    ((wsTokenCount t = 5 ∧
        ∀ c ∈ t.data, rustIsAsciiAlphanumeric c = true ∨
          rustIsWhitespace c = true ∨ c = ':') →
      parseTimestamp rfcOk t = .error ⟨.invalidData, oldFormatMsg t⟩) ∧
    (¬(wsTokenCount t = 5 ∧
        ∀ c ∈ t.data, rustIsAsciiAlphanumeric c = true ∨
          rustIsWhitespace c = true ∨ c = ':') →
      parseTimestamp rfcOk t = .error ⟨.invalidData, rfc3339FailMsg t⟩) := by
  have hiff : isOldFormat t = true ↔
      (wsTokenCount t = 5 ∧
        ∀ c ∈ t.data, rustIsAsciiAlphanumeric c = true ∨
          rustIsWhitespace c = true ∨ c = ':') := by
    simp [isOldFormat, List.all_eq_true, or_assoc]
  constructor
  · intro hcond
    simp [parseTimestamp, hfail, hiff.mpr hcond]
  · intro hcond
    have hof : isOldFormat t = false := by
      cases hv : isOldFormat t
      · rfl
      · exact absurd (hiff.mp hv) hcond
    simp [parseTimestamp, hfail, hof]

/-- Witness for C4: the legacy five-token timestamp from the
repository's own `test_legacy_date_format` gets the legacy message;
a non-legacy unparsable text gets the generic message. -/
theorem parseTimestamp_classifies_unparsable_witness :
    parseTimestamp (fun _ => false) "Sat Dec 21 16:48:22 2024" =
      .error ⟨.invalidData, oldFormatMsg "Sat Dec 21 16:48:22 2024"⟩ ∧
    parseTimestamp (fun _ => false) "yesterday-ish" =
      .error ⟨.invalidData, rfc3339FailMsg "yesterday-ish"⟩ :=
  ⟨(parseTimestamp_classifies_unparsable (fun _ => false)
      "Sat Dec 21 16:48:22 2024" rfl).1 (by decide),
   (parseTimestamp_classifies_unparsable (fun _ => false)
      "yesterday-ish" rfl).2 (by decide)⟩

/-! ## C5 — big-file copy policy -/

/-- C5: for a regular file over the 500 MB threshold moved via the
copy fallback: without `force` the big-file prompt is issued, and when
the user opts for deletion instead of the copy, `copy_file` returns
`Ok(false)` with no destination created, and `move_target` still
removes the original and returns `Ok(false)`, so `bury_target` writes
no log row (permanent deletion, not burial); with `force` no prompt is
issued, the file is copied, and `Ok(true)` is returned. -/
theorem copyFile_big_file_policy (ctx : CopyCtx) (e : Err)
    (hty : ctx.ftype = .regular) (hbig : ctx.len > BIG_FILE_THRESHOLD) :
    (ctx.confirm .bigFile = true →
      copyFile ctx false = ⟨.ok false, false, false, [.bigFile]⟩ ∧
      moveTargetFile ctx false false false true e =
        ⟨.ok false, false, true, [.bigFile]⟩ ∧
      buryWritesLog (moveTargetFile ctx false false false true e) = false) ∧
    (ctx.copyOk = true → copyFile ctx true = ⟨.ok true, true, true, []⟩) := by
  constructor
  · intro hyes
    have hc : copyFile ctx false = ⟨.ok false, false, false, [.bigFile]⟩ := by
      simp [copyFile, hbig, hyes]
    refine ⟨hc, ?_, ?_⟩ <;> simp [moveTargetFile, buryWritesLog, hc]
  · intro hcopy
    simp [copyFile, copyFileDispatch, hbig, hty, hcopy]

/-- Witness for C5 at a 500 MB + 1 byte regular file with a
collaborator answering yes. -/
theorem copyFile_big_file_policy_witness :
    copyFile ctxBigYes false = ⟨.ok false, false, false, [.bigFile]⟩ ∧
    moveTargetFile ctxBigYes false false false true ⟨.otherErr, "rm"⟩ =
      ⟨.ok false, false, true, [.bigFile]⟩ ∧
    buryWritesLog
      (moveTargetFile ctxBigYes false false false true ⟨.otherErr, "rm"⟩) =
        false ∧
    copyFile ctxBigYes true = ⟨.ok true, true, true, []⟩ :=
  ⟨((copyFile_big_file_policy ctxBigYes ⟨.otherErr, "rm"⟩ rfl
      (by decide)).1 rfl).1,
   ((copyFile_big_file_policy ctxBigYes ⟨.otherErr, "rm"⟩ rfl
      (by decide)).1 rfl).2.1,
   ((copyFile_big_file_policy ctxBigYes ⟨.otherErr, "rm"⟩ rfl
      (by decide)).1 rfl).2.2,
   (copyFile_big_file_policy ctxBigYes ⟨.otherErr, "rm"⟩ rfl
      (by decide)).2 rfl⟩

/-! ## C6 — non-regular-file fallback -/

/-- C6 counterexample: the claim says that at the "permanently delete
instead?" prompt, declining returns `false` and accepting propagates
the original copy error.  The code does the opposite: with a
collaborator that declines the prompt (`ctxSpecialNo`), `copy_file`
propagates the original copy error, not `Ok(false)`; with one that
accepts (`ctxSpecialYes`), it returns `Ok(false)` rather than the
error. -/
theorem copyFile_nonregular_decline_counterexample :
    (copyFile ctxSpecialNo false).result =
      .error ⟨.otherErr, "generic copy failed"⟩ ∧
    (copyFile ctxSpecialNo false).result ≠ .ok false ∧
    (copyFile ctxSpecialYes false).result = .ok false ∧
    (copyFile ctxSpecialYes false).result ≠
      .error ⟨.otherErr, "generic copy failed"⟩ :=
  ⟨by decide, by decide, by decide, by decide⟩

/-- C6 (amended): for a non-regular source (not regular, symlink or
FIFO, and not over the big-file threshold) the generic copy is
attempted; if it fails, then without `force` the non-regular prompt is
asked, where *accepting the deletion* returns `Ok(false)` and
*declining it* propagates the original copy error; with `force` no
prompt is asked and the original copy error is propagated directly. -/
theorem copyFile_nonregular_fallback (ctx : CopyCtx) (force : Bool)
    (hty : ctx.ftype = .otherFile) (hsmall : ctx.len ≤ BIG_FILE_THRESHOLD)
    (hfail : ctx.copyOk = false) :
    (copyFile ctx force).copyAttempted = true ∧
    (force = false → ctx.confirm .nonRegular = true →
      copyFile ctx false = ⟨.ok false, false, true, [.nonRegular]⟩) ∧
    (force = false → ctx.confirm .nonRegular = false →
      copyFile ctx false = ⟨.error ctx.copyErr, false, true, [.nonRegular]⟩) ∧
    (force = true → copyFile ctx true = ⟨.error ctx.copyErr, false, true, []⟩) := by
  have hnb : ¬ctx.len > BIG_FILE_THRESHOLD := by omega
  refine ⟨?_, ?_, ?_, ?_⟩
  · cases hv : ctx.confirm .nonRegular <;> cases force <;>
      simp [copyFile, copyFileDispatch, hnb, hty, hfail, hv]
  · intro _ hv; simp [copyFile, copyFileDispatch, hnb, hty, hfail, hv]
  · intro _ hv; simp [copyFile, copyFileDispatch, hnb, hty, hfail, hv]
  · intro _; simp [copyFile, copyFileDispatch, hnb, hty, hfail]

/-- Witness for the amended C6 at the two concrete collaborators. -/
theorem copyFile_nonregular_fallback_witness :
    copyFile ctxSpecialYes false = ⟨.ok false, false, true, [.nonRegular]⟩ ∧
    copyFile ctxSpecialNo false =
      ⟨.error ⟨.otherErr, "generic copy failed"⟩, false, true, [.nonRegular]⟩ ∧
    copyFile ctxSpecialNo true =
      ⟨.error ⟨.otherErr, "generic copy failed"⟩, false, true, []⟩ :=
  ⟨(copyFile_nonregular_fallback ctxSpecialYes false rfl (by decide)
      rfl).2.1 rfl rfl,
   (copyFile_nonregular_fallback ctxSpecialNo false rfl (by decide)
      rfl).2.2.1 rfl rfl,
   (copyFile_nonregular_fallback ctxSpecialNo true rfl (by decide)
      rfl).2.2.2 rfl⟩

/-! ## C7 — graveyard destination choice -/

/-- C7: the chosen destination is the graveyard root joined with the
absolute source path; when that destination is free it is used as is,
and when it is occupied the `~N` suffix with the lowest unused
positive integer is appended, so two colliding buries yield `X` and
`X~1`. -/
theorem buryDest_mirrors_and_resolves_collision (g src : String)
    (ex₁ ex₂ : String → Bool)
    (h₁ : ∃ n, ex₁ (graveName (joinAbsolute g src) (n + 1)) = false)
    (h₂ : ∃ n, ex₂ (graveName (joinAbsolute g src) (n + 1)) = false) :
    (ex₁ (joinAbsolute g src) = false →
      buryDest ex₁ g src h₁ = joinAbsolute g src) ∧
    (ex₂ (joinAbsolute g src) = true →
      buryDest ex₂ g src h₂ =
        graveName (joinAbsolute g src) (Nat.find h₂ + 1) ∧
      ex₂ (buryDest ex₂ g src h₂) = false ∧
      (∀ m, m < Nat.find h₂ →
        ex₂ (graveName (joinAbsolute g src) (m + 1)) = true) ∧
      (ex₂ (graveName (joinAbsolute g src) 1) = false →
        buryDest ex₂ g src h₂ = graveName (joinAbsolute g src) 1)) := by
  constructor
  · intro hfree
    simp [buryDest, hfree]
  · intro htaken
    have hb : buryDest ex₂ g src h₂ =
        graveName (joinAbsolute g src) (Nat.find h₂ + 1) := by
      simp [buryDest, renameGrave, htaken]
    refine ⟨hb, ?_, ?_, ?_⟩
    · rw [hb]; exact Nat.find_spec h₂
    · intro m hm
      have := Nat.find_min h₂ hm
      cases hv : ex₂ (graveName (joinAbsolute g src) (m + 1))
      · exact absurd hv this
      · rfl
    · intro hone
      have hz : Nat.find h₂ = 0 := Nat.find_eq_zero h₂ |>.mpr hone
      rw [hb, hz]

/-- Witness for C7: graveyard `/gy`, source `/a/b`; on an empty disk
the destination is `/gy/a/b`, and when `/gy/a/b` is occupied but
`/gy/a/b~1` is free the destination is `/gy/a/b~1`. -/
theorem buryDest_mirrors_and_resolves_collision_witness :
    buryDest (fun _ => false) "/gy" "/a/b" ⟨0, rfl⟩ = "/gy/a/b" ∧
    buryDest (fun s => s == "/gy/a/b") "/gy" "/a/b" ⟨0, by decide⟩ =
      "/gy/a/b~1" :=
  ⟨((buryDest_mirrors_and_resolves_collision "/gy" "/a/b"
      (fun _ => false) (fun s => s == "/gy/a/b") ⟨0, rfl⟩
      ⟨0, by decide⟩).1 rfl).trans (by decide),
   (((buryDest_mirrors_and_resolves_collision "/gy" "/a/b"
      (fun _ => false) (fun s => s == "/gy/a/b") ⟨0, rfl⟩
      ⟨0, by decide⟩).2 (by decide)).2.2.2 (by decide)).trans (by decide)⟩

/-! ## C10 — unbury collision handling -/

/-- C10: when the recorded original path is already occupied at
restore time, the unbury loop restores to the collision-renamed `~N`
variant of the original path: a path that does not currently exist and
differs from the occupied original, so the existing object is never
overwritten. -/
theorem restoreTarget_avoids_overwrite (ex : String → Bool) (orig : String)
    (h : ∃ n, ex (graveName orig (n + 1)) = false) (hex : ex orig = true) :
    restoreTarget ex orig h = graveName orig (Nat.find h + 1) ∧
    ex (restoreTarget ex orig h) = false ∧
    restoreTarget ex orig h ≠ orig := by
  have hb : restoreTarget ex orig h = graveName orig (Nat.find h + 1) := by
    simp [restoreTarget, renameGrave, hex]
  have hfree : ex (restoreTarget ex orig h) = false := by
    rw [hb]; exact Nat.find_spec h
  refine ⟨hb, hfree, fun heq => ?_⟩
  rw [heq, hex] at hfree
  cases hfree

/-- Witness for C10: original path `/a/b` occupied, `/a/b~1` free. -/
theorem restoreTarget_avoids_overwrite_witness :
    restoreTarget (fun s => s == "/a/b") "/a/b" ⟨0, by decide⟩ = "/a/b~1" ∧
    restoreTarget (fun s => s == "/a/b") "/a/b" ⟨0, by decide⟩ ≠ "/a/b" := by
  have hz : Nat.find (⟨0, by decide⟩ :
      ∃ n, (fun s => s == "/a/b") (graveName "/a/b" (n + 1)) = false) = 0 :=
    Nat.find_eq_zero _ |>.mpr (by decide)
  refine ⟨?_, ?_⟩
  · exact ((restoreTarget_avoids_overwrite (fun s => s == "/a/b") "/a/b"
      ⟨0, by decide⟩ (by decide)).1.trans (by rw [hz]; decide))
  · exact (restoreTarget_avoids_overwrite (fun s => s == "/a/b") "/a/b"
      ⟨0, by decide⟩ (by decide)).2.2

/-! ## C8 — lock discipline: auxiliary lemmas -/

theorem interleave_nil_left : ∀ {ys zs : List LogAction},
    Interleave [] ys zs → zs = ys := by
  intro ys
  induction ys with
  | nil => intro zs h; cases h; rfl
  | cons y ys ih =>
    intro zs h
    cases h with
    | right h' => rw [ih h']

theorem interleave_comm : ∀ {xs ys zs : List LogAction},
    Interleave xs ys zs → Interleave ys xs zs := by
  intro xs ys zs h
  induction h with
  | nil => exact .nil
  | left _ ih => exact .right ih
  | right _ ih => exact .left ih

theorem interleave_all_left : ∀ (xs ys : List LogAction),
    Interleave xs ys (xs ++ ys)
  | [], [] => .nil
  | [], y :: ys => .right (interleave_all_left [] ys)
  | x :: xs, ys => .left (interleave_all_left xs ys)

theorem runTrace_append (st : LogState) (xs ys : List LogAction) :
    runTrace st (xs ++ ys) = (runTrace st xs).bind (runTrace · ys) := by
  induction xs generalizing st with
  | nil => simp [runTrace]
  | cons a rest ih =>
    simp only [List.cons_append, runTrace]
    cases stepAction st a with
    | none => simp
    | some st2 => simp [ih st2]

theorem stepAction_acquire_free (f : String) (p : Bool) :
    stepAction ⟨f, none⟩ (.acquire p) = some ⟨f, some p⟩ := rfl

theorem stepAction_acquire_held (f : String) (p q : Bool) :
    stepAction ⟨f, some p⟩ (.acquire q) = none := rfl

theorem stepAction_release_self (f : String) (p : Bool) :
    stepAction ⟨f, some p⟩ (.release p) = some ⟨f, none⟩ := by
  simp [stepAction]

theorem stepAction_write (f : String) (hold : Option Bool) (p : Bool)
    (s : String) :
    stepAction ⟨f, hold⟩ (.writeChunk p s) = some ⟨f ++ s, hold⟩ := by
  cases hold <;> rfl

theorem runTrace_cons_some {st st2 : LogState} {a : LogAction}
    (h : stepAction st a = some st2) (rest : List LogAction) :
    runTrace st (a :: rest) = runTrace st2 rest := by
  simp [runTrace, h]

theorem runTrace_cons_none {st : LogState} {a : LogAction}
    (h : stepAction st a = none) (rest : List LogAction) :
    runTrace st (a :: rest) = none := by
  simp [runTrace, h]

theorem runTrace_writes (p : Bool) (ws : List String) (f : String)
    (hold : Option Bool) :
    runTrace ⟨f, hold⟩ (ws.map (LogAction.writeChunk p)) =
      some ⟨f ++ catFrags ws, hold⟩ := by
  induction ws generalizing f with
  | nil => simp [runTrace, catFrags, String.append_empty]
  | cons w rest ih =>
    rw [List.map_cons, runTrace_cons_some (stepAction_write f hold p w),
      ih (f ++ w), catFrags, String.append_assoc]

/-- A full locked append from an unlocked state runs to completion,
appending the row atomically. -/
theorem runTrace_locked (q : Bool) (ws : List String) (f : String) :
    runTrace ⟨f, none⟩
      (LogAction.acquire q ::
        (ws.map (LogAction.writeChunk q) ++ [LogAction.release q])) =
      some ⟨f ++ catFrags ws, none⟩ := by
  rw [runTrace_cons_some (stepAction_acquire_free f q), runTrace_append,
    runTrace_writes, Option.some_bind,
    runTrace_cons_some (stepAction_release_self (f ++ catFrags ws) q)]
  rfl

/-- Mutual exclusion: while process `p` holds the lock and still has
to write its fragments and release, the other process — whose next
action is `acquire` — cannot be scheduled, so any schedule that runs
to completion performs all of `p`'s writes, then all of the other's. -/
theorem runTrace_critical (p q : Bool) (ws2 : List String) :
    ∀ (ws1 : List String) (sched : List LogAction) (f : String)
      (stF : LogState),
      Interleave (ws1.map (LogAction.writeChunk p) ++ [LogAction.release p])
        (LogAction.acquire q ::
          (ws2.map (LogAction.writeChunk q) ++ [LogAction.release q])) sched →
      runTrace ⟨f, some p⟩ sched = some stF →
      stF = ⟨f ++ catFrags ws1 ++ catFrags ws2, none⟩ := by
  intro ws1
  induction ws1 with
  | nil =>
    intro sched f stF hint hrun
    cases hint with
    | left h' =>
      rw [interleave_nil_left h',
        runTrace_cons_some (stepAction_release_self f p),
        runTrace_locked q ws2 f] at hrun
      cases hrun
      rw [show catFrags [] = "" from rfl, String.append_empty]
    | right h' =>
      rw [runTrace_cons_none (stepAction_acquire_held f p q)] at hrun
      exact Option.noConfusion hrun
  | cons w rest ih =>
    intro sched f stF hint hrun
    cases hint with
    | left h' =>
      rw [runTrace_cons_some (stepAction_write f (some p) p w)] at hrun
      rw [ih _ (f ++ w) stF h' hrun]
      simp [catFrags, String.append_assoc]
    | right h' =>
      rw [runTrace_cons_none (stepAction_acquire_held f p q)] at hrun
      exact Option.noConfusion hrun

/-- Unfolded form of a locked `write_log` trace. -/
theorem writeLogTrace_true (p : Bool) (ws : List String) :
    writeLogTrace true p ws =
      LogAction.acquire p ::
        (ws.map (LogAction.writeChunk p) ++ [LogAction.release p]) := rfl

/-! ## C8 — the lock serializes appends -/

/-- C8: with `FILE_LOCK = true`, any schedule of two processes each
appending one row through `write_log` that the advisory-lock
semantics allows produces the two rows whole, one after the other, in
one of the two orders — partial rows never interleave.  With
`FILE_LOCK = false` no such guarantee holds: there is a valid schedule
of the unlocked traces whose result interleaves the fragments of the
two rows and matches neither order.  In `delete_lines`' rewrite trace,
the lock likewise encloses every written line (though the truncation
happens at open time, just before the acquisition). -/
theorem record_lock_serializes_appends :
    (∀ (ws1 ws2 : List String) (f0 : String) (sched : List LogAction)
        (stF : LogState),
      Interleave (writeLogTrace true true ws1) (writeLogTrace true false ws2)
        sched →
      runTrace ⟨f0, none⟩ sched = some stF →
      stF.file = f0 ++ catFrags ws1 ++ catFrags ws2 ∨
        stF.file = f0 ++ catFrags ws2 ++ catFrags ws1) ∧
    (∃ (sched : List LogAction) (stF : LogState),
      Interleave (writeLogTrace false true (rowFragments "t1" "o1" "d1"))
        (writeLogTrace false false (rowFragments "t2" "o2" "d2")) sched ∧
      runTrace ⟨"", none⟩ sched = some stF ∧
      stF.file ≠ catFrags (rowFragments "t1" "o1" "d1") ++
          catFrags (rowFragments "t2" "o2" "d2") ∧
      stF.file ≠ catFrags (rowFragments "t2" "o2" "d2") ++
          catFrags (rowFragments "t1" "o1" "d1")) ∧
    (∀ (p : Bool) (ws : List String),
      deleteLinesTrace true p ws =
        [LogAction.truncate p] ++ [LogAction.acquire p] ++
          ws.map (LogAction.writeChunk p) ++ [LogAction.release p]) := by
  refine ⟨?_, ?_, fun p ws => rfl⟩
  · intro ws1 ws2 f0 sched stF hint hrun
    rw [writeLogTrace_true, writeLogTrace_true] at hint
    cases hint with
    | left h' =>
      rw [runTrace_cons_some (stepAction_acquire_free f0 true)] at hrun
      left
      rw [runTrace_critical true false ws2 ws1 _ f0 stF h' hrun]
    | right h' =>
      rw [runTrace_cons_some (stepAction_acquire_free f0 false)] at hrun
      right
      rw [runTrace_critical false true ws1 ws2 _ f0 stF
        (interleave_comm h') hrun]
  · refine ⟨[LogAction.writeChunk true "t1"] ++
      (rowFragments "t2" "o2" "d2").map (LogAction.writeChunk false) ++
      (["\t", "o1", "\t", "d1", "\n"].map (LogAction.writeChunk true)),
      ⟨"t1t2\to2\td2\n\to1\td1\n", none⟩, ?_, ?_, ?_, ?_⟩
    · exact .left (.right (.right (.right (.right (.right (.right
        (.left (.left (.left (.left (.left .nil)))))))))))
    · rfl
    · decide
    · decide

/-- Witness for C8: the sequential schedule of two locked appends is a
valid interleaving and yields the first row then the second. -/
theorem record_lock_serializes_appends_witness :
    (⟨"ab", none⟩ : LogState).file = "" ++ catFrags ["a"] ++ catFrags ["b"] ∨
    (⟨"ab", none⟩ : LogState).file = "" ++ catFrags ["b"] ++ catFrags ["a"] :=
  record_lock_serializes_appends.1 ["a"] ["b"] ""
    (writeLogTrace true true ["a"] ++ writeLogTrace true false ["b"])
    ⟨"ab", none⟩
    (interleave_all_left _ _) rfl

end Rip2
